import Mathlib

/-!
Verification of the UDP latency-statistics aggregator (udp.py).

The source is shallow-embedded: Python values decoded from JSON become the
inductive PyVal; Python floats are modelled exactly (finite values as
rationals, plus the non-finite specials NaN and infinities); fallible code
(statements that may raise) returns Except PyErr.  Console printing is
modelled as a list of log events carrying the printed data.
-/


namespace STR

/-- A Python float, modelled exactly: a finite value is kept as the rational
it denotes (the repository only handles millisecond-scale quantities, far
below 2^53 where doubles are exact), and the non-finite specials NaN and
the two infinities are kept as distinguished constructors. -/
inductive PyFloat where
  | fin (q : ℚ)
  | nan
  | inf
  | ninf
deriving DecidableEq

/-- A decoded JSON value as produced by json.loads: null, booleans, integers,
floats (Python json also accepts the NaN/Infinity constants), strings,
arrays, and objects (a dict, kept as an association list in insertion
order). -/
inductive PyVal where
  | vnull
  | vbool (b : Bool)
  | vint (n : Int)
  | vfloat (f : PyFloat)
  | vstr (s : String)
  | vlist (xs : List PyVal)
  | vobj (fields : List (String × PyVal))

mutual

/-- Structural equality test on decoded values (used to give PyVal decidable
equality; note Python dict keys additionally identify 1, 1.0 and True, a
coercion no task key in this protocol relies on). -/
def PyVal.beq : PyVal → PyVal → Bool
  | .vnull, .vnull => true
  | .vbool a, .vbool b => a == b
  | .vint a, .vint b => a == b
  | .vfloat a, .vfloat b => a == b
  | .vstr a, .vstr b => a == b
  | .vlist xs, .vlist ys => PyVal.beqList xs ys
  | .vobj xs, .vobj ys => PyVal.beqFields xs ys
  | _, _ => false

/-- Pointwise equality test on lists of decoded values. -/
def PyVal.beqList : List PyVal → List PyVal → Bool
  | [], [] => true
  | x :: xs, y :: ys => PyVal.beq x y && PyVal.beqList xs ys
  | _, _ => false

/-- Pointwise equality test on object field lists. -/
def PyVal.beqFields : List (String × PyVal) → List (String × PyVal) → Bool
  | [], [] => true
  | (k, x) :: xs, (l, y) :: ys => k == l && (PyVal.beq x y && PyVal.beqFields xs ys)
  | _, _ => false

end

mutual

theorem PyVal.beq_refl : ∀ a : PyVal, PyVal.beq a a = true
  | .vnull => rfl
  | .vbool b => by simp [PyVal.beq]
  | .vint n => by simp [PyVal.beq]
  | .vfloat f => by simp [PyVal.beq]
  | .vstr s => by simp [PyVal.beq]
  | .vlist xs => by simp [PyVal.beq, PyVal.beqList_refl xs]
  | .vobj xs => by simp [PyVal.beq, PyVal.beqFields_refl xs]

theorem PyVal.beqList_refl : ∀ xs : List PyVal, PyVal.beqList xs xs = true
  | [] => rfl
  | x :: xs => by simp [PyVal.beqList, PyVal.beq_refl x, PyVal.beqList_refl xs]

theorem PyVal.beqFields_refl : ∀ xs : List (String × PyVal), PyVal.beqFields xs xs = true
  | [] => rfl
  | (k, x) :: xs => by simp [PyVal.beqFields, PyVal.beq_refl x, PyVal.beqFields_refl xs]

end

mutual

theorem PyVal.beq_sound : ∀ a b : PyVal, PyVal.beq a b = true → a = b
  | .vnull, b => by cases b <;> simp [PyVal.beq]
  | .vbool x, b => by cases b <;> simp [PyVal.beq]
  | .vint x, b => by cases b <;> simp [PyVal.beq]
  | .vfloat x, b => by cases b <;> simp [PyVal.beq]
  | .vstr x, b => by cases b <;> simp [PyVal.beq]
  | .vlist xs, b => fun h => by
      cases b <;> simp [PyVal.beq] at h
      exact congrArg PyVal.vlist (PyVal.beqList_sound xs _ h)
  | .vobj xs, b => fun h => by
      cases b <;> simp [PyVal.beq] at h
      exact congrArg PyVal.vobj (PyVal.beqFields_sound xs _ h)

theorem PyVal.beqList_sound : ∀ xs ys : List PyVal, PyVal.beqList xs ys = true → xs = ys
  | [], ys => by cases ys <;> simp [PyVal.beqList]
  | x :: xs, ys => fun h => by
      cases ys <;> simp [PyVal.beqList] at h
      rw [PyVal.beq_sound x _ h.1, PyVal.beqList_sound xs _ h.2]

theorem PyVal.beqFields_sound :
    ∀ xs ys : List (String × PyVal), PyVal.beqFields xs ys = true → xs = ys
  | [], ys => by cases ys <;> simp [PyVal.beqFields]
  | (k, x) :: xs, ys => fun h => by
      cases ys <;> simp [PyVal.beqFields] at h
      rw [h.1, PyVal.beq_sound x _ h.2.1, PyVal.beqFields_sound xs _ h.2.2]

end

theorem PyVal.beq_iff_eq (a b : PyVal) : PyVal.beq a b = true ↔ a = b :=
  ⟨PyVal.beq_sound a b, fun h => h ▸ PyVal.beq_refl a⟩

instance : DecidableEq PyVal :=
  fun a b => decidable_of_iff (PyVal.beq a b = true) (PyVal.beq_iff_eq a b)

/-- The Python exceptions the embedded code can raise. -/
inductive PyErr where
  | valueError
  | overflowError
  | attributeError
  | typeError
  | indexError
deriving DecidableEq

instance {ε α : Type} [DecidableEq ε] [DecidableEq α] : DecidableEq (Except ε α) :=
  fun x y =>
    match x, y with
    | .ok u, .ok v => decidable_of_iff (u = v) (by simp)
    | .error u, .error v => decidable_of_iff (u = v) (by simp)
    | .ok _, .error _ => isFalse (by simp)
    | .error _, .ok _ => isFalse (by simp)

/-- Python truthiness of a decoded value: None, False, zero, the empty
string and empty containers are falsy, everything else truthy. -/
def PyVal.truthy : PyVal → Bool
  | .vnull => false
  | .vbool b => b
  | .vint n => decide (n ≠ 0)
  | .vfloat f => decide (f ≠ PyFloat.fin 0)
  | .vstr s => decide (s ≠ "")
  | .vlist xs => !xs.isEmpty
  | .vobj fs => !fs.isEmpty

/-- Python dict.get on a decoded JSON object: the value of the key, or None
when absent.  json.loads keeps the last of duplicate keys, hence the search
from the end. -/
def getField (fields : List (String × PyVal)) (key : String) : PyVal :=
  match fields.reverse.find? (fun p => p.1 == key) with
  | some p => p.2
  | none => .vnull

/-- Whether a decoded value passes isinstance(x, (int, float)); a Python
bool is a subclass of int and passes too. -/
def isNumLike : PyVal → Bool
  | .vbool _ => true
  | .vint _ => true
  | .vfloat _ => true
  | _ => false

/-- Truncation toward zero of an exact value, as Python int() on a float. -/
def ratTruncToZero (q : ℚ) : Int := if 0 ≤ q then ⌊q⌋ else ⌈q⌉

/-- Python int() applied to a numeric value: identity on integers, 1 and 0
on the booleans, truncation toward zero on finite floats; NaN raises
ValueError and the two infinities raise OverflowError. -/
def pyIntOfNum : PyVal → Except PyErr Int
  | .vbool b => .ok (if b then 1 else 0)
  | .vint n => .ok n
  | .vfloat (.fin q) => .ok (ratTruncToZero q)
  | .vfloat .nan => .error PyErr.valueError
  | .vfloat .inf => .error PyErr.overflowError
  | .vfloat .ninf => .error PyErr.overflowError
  | _ => .error PyErr.typeError

/-- Leap years of the proleptic Gregorian calendar, as in the Python
standard module datetime. -/
def isLeap (y : Nat) : Bool := y % 4 == 0 && (y % 100 != 0 || y % 400 == 0)

/-- Length of a month, as in datetime. -/
def daysInMonth (y m : Nat) : Nat :=
  if m = 2 then (if isLeap y then 29 else 28)
  else if m = 4 ∨ m = 6 ∨ m = 9 ∨ m = 11 then 30
  else 31

/-- Days in all years strictly before year y (year 1 is the first). -/
def daysBeforeYear (y : Nat) : Nat :=
  365 * (y - 1) + (y - 1) / 4 - (y - 1) / 100 + (y - 1) / 400

/-- Days in the months of year y strictly before month m. -/
def daysBeforeMonth (y m : Nat) : Nat :=
  (List.range (m - 1)).foldl (fun acc i => acc + daysInMonth y (i + 1)) 0

/-- Python date.toordinal: day count in the proleptic Gregorian calendar
with 0001-01-01 as day one; 1970-01-01 is day 719163. -/
def toordinal (y m d : Nat) : Nat := daysBeforeYear y + daysBeforeMonth y m + d

/-- The fields of a Python datetime.datetime value: a Gregorian date, a time
of day with microseconds, and an optional fixed UTC offset (none models a
naive datetime). -/
structure PyDateTime where
  year : Nat
  month : Nat
  day : Nat
  hour : Nat
  minute : Nat
  second : Nat
  microsecond : Nat
  tzOffsetSeconds : Option Int
deriving DecidableEq

/-- The whitespace characters stripped by Python str.strip() (ASCII subset;
the telemetry payloads contain no exotic Unicode spacing). -/
def pySpace (c : Char) : Bool :=
  c == ' ' || c == '\t' || c == '\n' || c == '\r' || c == '\x0b' || c == '\x0c'

/-- Python str.strip() with no argument: drop leading and trailing
whitespace. -/
def pyStrip (cs : List Char) : List Char :=
  ((cs.dropWhile pySpace).reverse.dropWhile pySpace).reverse

/-- Reads exactly n decimal digits into an accumulator. -/
def readFixedDigits : Nat → Nat → List Char → Option (Nat × List Char)
  | 0, acc, cs => some (acc, cs)
  | n + 1, acc, c :: cs =>
      if c.isDigit then readFixedDigits n (acc * 10 + (c.toNat - 48)) cs else none
  | _ + 1, _, [] => none

/-- Consumes one expected character. -/
def readChar (c : Char) : List Char → Option (List Char)
  | c2 :: cs => if c2 = c then some cs else none
  | [] => none

/-- Microseconds denoted by a fractional-second digit run; digits beyond
the sixth are truncated, shorter runs are scaled up. -/
def microOfFracDigits (ds : List Char) : Nat :=
  let ds6 := ds.take 6
  (ds6.foldl (fun a c => a * 10 + (c.toNat - 48)) 0) * 10 ^ (6 - ds6.length)

/-- Optional fractional-second component: a dot or comma followed by at
least one digit; absent otherwise. -/
def parseFrac : List Char → Option (Nat × List Char)
  | c :: cs =>
    if c = '.' ∨ c = ',' then
      let (ds, rest) := cs.span Char.isDigit
      if ds.isEmpty then none else some (microOfFracDigits ds, rest)
    else some (0, c :: cs)
  | [] => some (0, [])

/-- Trailing UTC-offset component: empty input means a naive datetime;
otherwise a sign followed by HH, HHMM, HH:MM or HH:MM:SS, each bounded so
the offset stays below a day. -/
def parseTZ : List Char → Option (Option Int)
  | [] => some none
  | c :: cs =>
    if c = '+' ∨ c = '-' then
      let sgn : Int := if c = '+' then 1 else -1
      match readFixedDigits 2 0 cs with
      | none => none
      | some (hh, cs2) =>
        if hh ≥ 24 then none else
        match cs2 with
        | [] => some (some (sgn * ((hh : Int) * 3600)))
        | ':' :: cs3 =>
          match readFixedDigits 2 0 cs3 with
          | none => none
          | some (mm, cs4) =>
            if mm ≥ 60 then none else
            match cs4 with
            | [] => some (some (sgn * ((hh : Int) * 3600 + (mm : Int) * 60)))
            | ':' :: cs5 =>
              match readFixedDigits 2 0 cs5 with
              | none => none
              | some (ss, cs6) =>
                if ss ≥ 60 then none else
                if cs6 = [] then
                  some (some (sgn * ((hh : Int) * 3600 + (mm : Int) * 60 + (ss : Int))))
                else none
            | _ => none
        | _ =>
          match readFixedDigits 2 0 cs2 with
          | none => none
          | some (mm, cs4) =>
            if mm ≥ 60 then none else
            if cs4 = [] then some (some (sgn * ((hh : Int) * 3600 + (mm : Int) * 60)))
            else none
    else none

/-- Modelled from the Python standard library (not repository code):
datetime.datetime.fromisoformat restricted to the dashed date form with
optional time of day, fractional seconds and numeric UTC offset — the
shapes the telemetry payloads use.  Returns none where CPython raises
ValueError. -/
def fromisoformat (cs0 : List Char) : Option PyDateTime := do
  let cs := cs0
  let (y, cs) ← readFixedDigits 4 0 cs
  let cs ← readChar '-' cs
  let (mo, cs) ← readFixedDigits 2 0 cs
  let cs ← readChar '-' cs
  let (d, cs) ← readFixedDigits 2 0 cs
  if y < 1 then none else
  if mo < 1 ∨ mo > 12 then none else
  if d < 1 ∨ d > daysInMonth y mo then none else
  match cs with
  | [] => some (PyDateTime.mk y mo d 0 0 0 0 none)
  | _sep :: cs2 => do
    let (hh, cs3) ← readFixedDigits 2 0 cs2
    if hh ≥ 24 then none else
    match cs3 with
    | ':' :: cs4 => do
      let (mi, cs5) ← readFixedDigits 2 0 cs4
      if mi ≥ 60 then none else
      match cs5 with
      | ':' :: cs6 => do
        let (ss, cs7) ← readFixedDigits 2 0 cs6
        if ss ≥ 60 then none else do
        let (micro, cs8) ← parseFrac cs7
        let tz ← parseTZ cs8
        some (PyDateTime.mk y mo d hh mi ss micro tz)
      | _ => do
        let tz ← parseTZ cs5
        some (PyDateTime.mk y mo d hh mi 0 0 tz)
    | _ => do
      let tz ← parseTZ cs3
      some (PyDateTime.mk y mo d hh 0 0 0 tz)

/-- Python aware-datetime .timestamp() scaled to milliseconds and truncated,
that is int(dt.timestamp() * 1000); a missing offset is read as UTC, which
is what dt.replace(tzinfo=timezone.utc) produces at the call site.  The
float arithmetic is modelled exactly over the rationals. -/
def dtEpochMs (dt : PyDateTime) : Int :=
  let off := dt.tzOffsetSeconds.getD 0
  let secs : Int :=
    ((toordinal dt.year dt.month dt.day : Int) - 719163) * 86400
      + (dt.hour : Int) * 3600 + (dt.minute : Int) * 60 + (dt.second : Int) - off
  ratTruncToZero (((secs : ℚ) + (dt.microsecond : ℚ) / 1000000) * 1000)

/-- udp.py lines 22-33, the now branch of parse_send_ms: when the field
value is a string it is stripped, a trailing Z is replaced by +00:00, the
result is parsed as ISO-8601 (ValueError is caught there and becomes the
none result), naive values are read as UTC and converted to truncated epoch
milliseconds; any other field value falls to the final return None.  The
branch is total: no exception escapes it. -/
def parse_now_ms (v : PyVal) : Option Int :=
  match v with
  | .vstr s0 =>
    let cs := pyStrip s0.toList
    let cs2 :=
      if cs.getLast? = some 'Z' then cs.dropLast ++ ['+', '0', '0', ':', '0', '0']
      else cs
    match fromisoformat cs2 with
    | none => none
    | some dt => some (dtEpochMs dt)
  | _ => none

/-- udp.py lines 14-33, parse_send_ms: the send instant in epoch
milliseconds, preferring a numeric epoch_ms field (isinstance admits bools
and floats) and otherwise deferring to the now branch.  Called on a
non-object value, the first .get raises AttributeError; a non-finite
epoch_ms number raises from int(), and both raises sit outside the try
block. -/
def parse_send_ms (obj : PyVal) : Except PyErr (Option Int) :=
  match obj with
  | .vobj fields =>
    if isNumLike (getField fields "epoch_ms") then
      match pyIntOfNum (getField fields "epoch_ms") with
      | .ok n => .ok (some n)
      | .error e => .error e
    else .ok (parse_now_ms (getField fields "now"))
  | _ => .error PyErr.attributeError

/-- The Python expression (a or b): the first operand if truthy, else the
second. -/
def pyOr (a b : PyVal) : PyVal := if a.truthy then a else b

/-- udp.py lines 35-44, task_key: the first truthy value among the fields
task, name, tag and event of the decoded object (the function is annotated
dict), defaulting to the string UNKNOWN. -/
def task_key (fields : List (String × PyVal)) : PyVal :=
  pyOr (getField fields "task")
    (pyOr (getField fields "name")
      (pyOr (getField fields "tag")
        (pyOr (getField fields "event") (.vstr "UNKNOWN"))))

/-- udp.py line 55: the zero-based nearest-rank-ceiling index
max(1, ceil(q n)) - 1 (never negative, so toNat is exact). -/
def hwmIndex (n : Nat) (q : ℚ) : Nat := (max 1 ⌈q * (n : ℚ)⌉ - 1).toNat

/-- udp.py lines 46-56, percentile_hwm: nan on an empty collection, else the
element of the ascending sort at the zero-based nearest-rank-ceiling index
max(1, ceil(q n)) - 1, as a float; an out-of-range index would raise
IndexError as in Python. -/
def percentile_hwm (values : List Int) (q : ℚ) : Except PyErr PyFloat :=
  if values.isEmpty then .ok PyFloat.nan
  else
    let vals := List.insertionSort (· ≤ ·) values
    if h : hwmIndex vals.length q < vals.length then
      .ok (PyFloat.fin ((vals.get ⟨hwmIndex vals.length q, h⟩ : Int) : ℚ))
    else .error PyErr.indexError

/-- Python max() on a list of ints.  All call sites of the repository guard
non-emptiness (Python max raises on an empty sequence; the model returns 0
there). -/
def pyMax : List Int → Int
  | [] => 0
  | x :: xs => xs.foldl max x

/-- Round half to even, as Python float formatting does (modelled on the
exact value). -/
def roundHalfEven (q : ℚ) : Int :=
  let f := ⌊q⌋
  let r := q - (f : ℚ)
  if r < 1 / 2 then f
  else if 1 / 2 < r then f + 1
  else if f % 2 = 0 then f else f + 1

/-- Python format(v, ".0f"): nan and the infinities print their names, a
finite value rounds half-to-even to an integer, keeping the sign when a
negative value rounds to zero. -/
def pyFormatF0 : PyFloat → String
  | PyFloat.nan => "nan"
  | PyFloat.inf => "inf"
  | PyFloat.ninf => "-inf"
  | PyFloat.fin q =>
      let n := roundHalfEven q
      if q < 0 ∧ n = 0 then "-0" else toString n

/-- The parts list built by the for-loop of format_hwms (udp.py lines
59-63), in order; the first exception from percentile_hwm propagates. -/
def hwmParts (values : List Int) : List ℚ → Except PyErr (List String)
  | [] => .ok []
  | p :: ps =>
    match percentile_hwm values p with
    | .error e => .error e
    | .ok v =>
      match hwmParts values ps with
      | .error e => .error e
      | .ok parts =>
        .ok (("HWM(" ++ toString (ratTruncToZero (p * 100)) ++ "%)=" ++ pyFormatF0 v ++ "ms")
          :: parts)

/-- udp.py lines 58-64, format_hwms: one HWM(p%)=Vms part per requested
percentile, joined with vertical bars. -/
def format_hwms (values : List Int) (pcts : List ℚ) : Except PyErr String :=
  match hwmParts values pcts with
  | .error e => .error e
  | .ok parts => .ok (String.intercalate " | " parts)

/-- udp.py line 11: the percentile set of the final report. -/
def HWM_PCTS : List ℚ := [1, 99 / 100, 95 / 100]

/-- The aggregation store delays_by_task: a defaultdict from task key to the
list of delay samples, modelled as an association list in key-insertion
order (a Python dict iterates in that order and holds each key once). -/
abbrev Store := List (PyVal × List Int)

/-- Appends one sample to the series of the given key, creating the series
at the end of the store when the key is new — the effect of
delays_by_task[tname].append(delay) on a defaultdict(list). -/
def store_append : Store → PyVal → Int → Store
  | [], k, d => [(k, [d])]
  | (k2, v) :: rest, k, d =>
      if k2 = k then (k2, v ++ [d]) :: rest else (k2, v) :: store_append rest k d

/-- The series recorded for a key, if any. -/
def lookupSeries : Store → PyVal → Option (List Int)
  | [], _ => none
  | (k2, v) :: rest, k => if k2 = k then some v else lookupSeries rest k

/-- One console line of the ingest loop, as an event carrying the printed
data: the raw line printed for every datagram, then the per-message summary
printed after recording a sample. -/
inductive LogLine where
  | raw (local_hms addr txt : String)
  | perMsg (tname : PyVal) (delay wcrt : Int) (hwms : String) (n : Nat)
deriving DecidableEq

/-- One received datagram as the loop sees it: the lossily-decoded payload
text, the json.loads outcome on that text (error marks a JSONDecodeError),
the arrival instant in epoch milliseconds, and the peer address and local
wall-clock strings used only for logging. -/
structure Datagram where
  txt : String
  decoded : Except Unit PyVal
  recv_ms : Int
  addr : String
  local_hms : String

/-- udp.py lines 89-117, one iteration of the main loop: print the raw
line; a JSONDecodeError is caught and the iteration ends; an unusable
timestamp ends the iteration; otherwise the delay sample is appended to the
task series and the per-message summary is printed.  Any other exception
(from parse_send_ms, or from .get on a non-object) is uncaught.  The final
fallback branch is unreachable: parse_send_ms only succeeds on objects. -/
def ingest_step (store : Store) (dg : Datagram) : Except PyErr (Store × List LogLine) :=
  let rawLine := LogLine.raw dg.local_hms dg.addr dg.txt
  match dg.decoded with
  | .error _ => .ok (store, [rawLine])
  | .ok obj =>
    match parse_send_ms obj with
    | .error e => .error e
    | .ok none => .ok (store, [rawLine])
    | .ok (some send_ms) =>
      let delay := dg.recv_ms - send_ms
      match obj with
      | .vobj fields =>
        let tname := task_key fields
        let arr := (lookupSeries store tname).getD [] ++ [delay]
        let wcrt := pyMax arr
        match format_hwms arr [1, 99 / 100] with
        | .error e => .error e
        | .ok hwms =>
            .ok (store_append store tname delay,
                 [rawLine, LogLine.perMsg tname delay wcrt hwms arr.length])
      | _ => .error PyErr.attributeError

/-- The main loop over a finite inbound sequence: threads the store, stops
at the first uncaught exception, concatenates the console lines. -/
def ingest_run (store : Store) : List Datagram → Except PyErr (Store × List LogLine)
  | [] => .ok (store, [])
  | dg :: rest =>
    match ingest_step store dg with
    | .error e => .error e
    | .ok (store2, log) =>
      match ingest_run store2 rest with
      | .error e => .error e
      | .ok (store3, log2) => .ok (store3, log ++ log2)

/-- Strict lexicographic order on character lists by code point — how
Python compares the strings that sorted() uses as keys. -/
def lexLt : List Char → List Char → Bool
  | [], [] => false
  | [], _ :: _ => true
  | _ :: _, [] => false
  | a :: as, b :: bs => if a < b then true else if b < a then false else lexLt as bs

/-- One line of the final report, as an event carrying the printed data. -/
inductive ReportLine where
  | noSamples
  | taskLine (t : PyVal) (n : Nat) (wcrt : PyFloat) (avg : PyFloat) (hwms : String)
deriving DecidableEq

/-- The decorate pass of sorted(items, key=kv[0].lower()) in print_summary
(udp.py line 75): pairs each store entry with its lowercased key, left to
right; .lower() on a non-string task key raises AttributeError.  Lowercasing
is per character, as Python does for the ASCII keys of this protocol. -/
def lowerKeys : Store → Except PyErr (List (List Char × (PyVal × List Int)))
  | [] => .ok []
  | p :: rest =>
    match p.1 with
    | PyVal.vstr s =>
      match lowerKeys rest with
      | .error e => .error e
      | .ok ks => .ok ((s.toList.map Char.toLower, p) :: ks)
    | _ => .error PyErr.attributeError

/-- The body of the for-loop of print_summary (udp.py lines 75-80), one
report line per sorted store entry: count, worst case (nan guard on an
empty series), high-water marks, mean (nan guard on a zero count). -/
def reportLines : List (List Char × (PyVal × List Int)) → Except PyErr (List ReportLine)
  | [] => .ok []
  | p :: rest =>
    let arr := p.2.2
    let wcrt := if arr.isEmpty then PyFloat.nan else PyFloat.fin ((pyMax arr : Int) : ℚ)
    match format_hwms arr HWM_PCTS with
    | .error e => .error e
    | .ok hwms =>
      let avg :=
        if arr.length = 0 then PyFloat.nan
        else PyFloat.fin ((arr.sum : ℚ) / (arr.length : ℚ))
      match reportLines rest with
      | .error e => .error e
      | .ok ls => .ok (ReportLine.taskLine p.2.1 arr.length wcrt avg hwms :: ls)

/-- udp.py lines 70-80, print_summary: a no-samples notice for an empty
store; otherwise one line per task in case-insensitive key order (Python
sort is stable, matched by inserting on strict order) carrying the count,
the worst case, the mean and the HWM_PCTS high-water marks. -/
def print_summary (store : Store) : Except PyErr (List ReportLine) :=
  if store.isEmpty then .ok [ReportLine.noSamples]
  else
    match lowerKeys store with
    | .error e => .error e
    | .ok keyed => reportLines (List.insertionSort (fun a b => lexLt a.1 b.1 = true) keyed)

/-- Whether a decoded value is a non-finite Python float — exactly the
numeric values on which int() raises. -/
def isNonFiniteNum : PyVal → Bool
  | .vfloat PyFloat.nan => true
  | .vfloat PyFloat.inf => true
  | .vfloat PyFloat.ninf => true
  | _ => false

/-- A non-JSON datagram: json.loads raises JSONDecodeError on its text. -/
def dgBadC1 : Datagram :=
  ⟨"hello not json", .error (), 200, "10.0.0.7:6010", "12:00:02"⟩

/-- A well-formed telemetry datagram for task SORT, sent at epoch 100 ms and
received at 140 ms (delay 40 ms). -/
def dgGoodC1 : Datagram :=
  ⟨"\x7b\"task\":\"SORT\",\"epoch_ms\":100\x7d",
   .ok (.vobj [("task", .vstr "SORT"), ("epoch_ms", .vint 100)]),
   140, "10.0.0.7:6010", "12:00:03"⟩

/-- The datagram whose payload is the text 5: valid JSON, but a number, not
an object. -/
def dgNumC1 : Datagram := ⟨"5", .ok (.vint 5), 0, "10.0.0.7:6010", "12:00:04"⟩

/-- First SORT datagram of the end-to-end scenario: delay 110 - 100 = 10 ms. -/
def dgSortA : Datagram :=
  ⟨"\x7b\"task\":\"SORT\",\"epoch_ms\":100\x7d",
   .ok (.vobj [("task", .vstr "SORT"), ("epoch_ms", .vint 100)]),
   110, "10.0.0.7:6010", "12:00:00"⟩

/-- Second SORT datagram of the end-to-end scenario: delay 150 - 100 = 50 ms. -/
def dgSortB : Datagram :=
  ⟨"\x7b\"task\":\"SORT\",\"epoch_ms\":100\x7d",
   .ok (.vobj [("task", .vstr "SORT"), ("epoch_ms", .vint 100)]),
   150, "10.0.0.7:6010", "12:00:01"⟩

/-- A minimal non-JSON datagram used to exercise the store invariant. -/
def dgC9 : Datagram := ⟨"w", .error (), 0, "a", "t"⟩

section
attribute [local semireducible] Rat.mul Rat.add Rat.sub Rat.inv Rat.ofScientific

theorem foldl_max_le (xs : List Int) (a : Int) : a ≤ xs.foldl max a := by
  induction xs generalizing a with
  | nil => exact le_refl a
  | cons x xs ih =>
    rw [List.foldl_cons]
    exact le_trans (le_max_left a x) (ih (max a x))

theorem le_foldl_max (xs : List Int) (a x : Int) (hx : x ∈ xs) : x ≤ xs.foldl max a := by
  induction xs generalizing a with
  | nil => cases hx
  | cons y ys ih =>
    rw [List.foldl_cons]
    rcases List.mem_cons.mp hx with rfl | h
    · exact le_trans (le_max_right a x) (foldl_max_le ys (max a x))
    · exact ih (max a y) h

theorem foldl_max_mem (xs : List Int) (a : Int) : xs.foldl max a = a ∨ xs.foldl max a ∈ xs := by
  induction xs generalizing a with
  | nil => left; rfl
  | cons y ys ih =>
    rw [List.foldl_cons]
    rcases ih (max a y) with h | h
    · rcases max_choice a y with h2 | h2
      · left; rw [h, h2]
      · right; rw [h, h2]; exact List.mem_cons_self y ys
    · right; exact List.mem_cons_of_mem y h

theorem pyMax_mem (l : List Int) (h : l ≠ []) : pyMax l ∈ l := by
  match l with
  | [] => exact absurd rfl h
  | x :: xs =>
    show xs.foldl max x ∈ x :: xs
    rcases foldl_max_mem xs x with h2 | h2
    · rw [h2]; exact List.mem_cons_self x xs
    · exact List.mem_cons_of_mem x h2

theorem le_pyMax (l : List Int) (x : Int) (hx : x ∈ l) : x ≤ pyMax l := by
  match l with
  | [] => cases hx
  | y :: ys =>
    show x ≤ ys.foldl max y
    rcases List.mem_cons.mp hx with rfl | h
    · exact foldl_max_le ys x
    · exact le_foldl_max ys y x h

theorem hwmIndex_lt (values : List Int) (q : ℚ) (hne : values ≠ []) (h1 : q ≤ 1) :
    hwmIndex values.length q < values.length := by
  have hn : 0 < values.length := List.length_pos.mpr hne
  have hceil : ⌈q * (values.length : ℚ)⌉ ≤ (values.length : Int) := by
    rw [Int.ceil_le]
    push_cast
    exact mul_le_of_le_one_left (by positivity) h1
  have h2 : max 1 ⌈q * (values.length : ℚ)⌉ ≤ (values.length : Int) :=
    max_le (by omega) hceil
  unfold hwmIndex
  omega

theorem percentile_hwm_pos (values : List Int) (q : ℚ) (hne : values ≠ [])
    (hk : hwmIndex values.length q < values.length) :
    percentile_hwm values q =
      .ok (PyFloat.fin (((List.insertionSort (· ≤ ·) values).getD
        (hwmIndex values.length q) 0 : Int) : ℚ)) := by
  have hlen : (List.insertionSort (· ≤ ·) values).length = values.length :=
    (List.perm_insertionSort _ values).length_eq
  have hk2 : hwmIndex (List.insertionSort (· ≤ ·) values).length q <
      (List.insertionSort (· ≤ ·) values).length := by rw [hlen]; exact hk
  simp only [percentile_hwm]
  rw [if_neg (by simp [hne]), dif_pos hk2]
  rw [List.getD_eq_getElem _ _ (by rw [hlen]; exact hk)]
  simp only [List.get_eq_getElem, hlen]

theorem sorted_getD_last_eq_pyMax (values : List Int) (hne : values ≠ []) :
    (List.insertionSort (· ≤ ·) values).getD (values.length - 1) 0 = pyMax values := by
  have hperm := List.perm_insertionSort (· ≤ ·) values
  have hsort := List.sorted_insertionSort (· ≤ ·) values
  have hlen := hperm.length_eq
  have hn : 0 < values.length := List.length_pos.mpr hne
  have hlt : values.length - 1 < (List.insertionSort (· ≤ ·) values).length := by omega
  rw [List.getD_eq_getElem _ _ hlt]
  apply le_antisymm
  · exact le_pyMax values _ (hperm.mem_iff.mp (List.getElem_mem hlt))
  · obtain ⟨i, hi⟩ := List.mem_iff_get.mp (hperm.mem_iff.mpr (pyMax_mem values hne))
    rw [← hi]
    have hle : i ≤ (⟨values.length - 1, hlt⟩ : Fin (List.insertionSort (· ≤ ·) values).length) := by
      rw [Fin.le_def]
      have := i.2
      simp only [hlen] at this
      simp
      omega
    have := hsort.rel_get_of_le hle
    simpa using this

theorem percentile_hwm_nil (q : ℚ) : percentile_hwm [] q = .ok PyFloat.nan := rfl

theorem hwmParts_empty (pcts : List ℚ) :
    hwmParts [] pcts =
      .ok (pcts.map fun p =>
        "HWM(" ++ toString (ratTruncToZero (p * 100)) ++ "%)=" ++ "nan" ++ "ms") := by
  induction pcts with
  | nil => rfl
  | cons p ps ih => simp [hwmParts, percentile_hwm_nil, ih, pyFormatF0]

theorem lookupSeries_store_append_self (s : Store) (k : PyVal) (d : Int) :
    lookupSeries (store_append s k d) k = some ((lookupSeries s k).getD [] ++ [d]) := by
  induction s with
  | nil => simp [store_append, lookupSeries]
  | cons p rest ih =>
    obtain ⟨k2, v⟩ := p
    by_cases h : k2 = k
    · subst h
      simp [store_append, lookupSeries]
    · simp [store_append, lookupSeries, h, ih]

theorem lookupSeries_store_append_ne (s : Store) (k k2 : PyVal) (d : Int) (h : k2 ≠ k) :
    lookupSeries (store_append s k d) k2 = lookupSeries s k2 := by
  induction s with
  | nil =>
    simp [store_append, lookupSeries]
    exact fun he => h he.symm
  | cons p rest ih =>
    obtain ⟨k3, v⟩ := p
    by_cases h3 : k3 = k
    · subst h3
      have hne2 : ¬ k3 = k2 := fun he => h he.symm
      simp [store_append, lookupSeries, hne2]
    · by_cases h4 : k3 = k2
      · subst h4
        simp [store_append, lookupSeries, h3]
      · simp [store_append, lookupSeries, h3, h4, ih]

theorem keys_store_append (s : Store) (k : PyVal) (d : Int) :
    (store_append s k d).map Prod.fst = s.map Prod.fst ∨
    (store_append s k d).map Prod.fst = s.map Prod.fst ++ [k] := by
  induction s with
  | nil => right; simp [store_append]
  | cons p rest ih =>
    obtain ⟨k2, v⟩ := p
    by_cases h : k2 = k
    · left; simp [store_append, h]
    · rcases ih with h2 | h2
      · left; simp [store_append, h, h2]
      · right; simp [store_append, h, h2]

/-- Claim C1, counterexample: the claim quantifies over every datagram whose
payload is not decodable as a JSON object.  The payload 5 is such a datagram
(valid JSON, but a number), yet the iteration is fatal: obj.get raises an
uncaught AttributeError instead of returning to listening. -/
theorem claimC1_counterexample :
    ingest_step [] dgNumC1 = .error PyErr.attributeError := rfl

/-- Claim C1, amended: for every datagram whose payload fails JSON decoding
altogether (JSONDecodeError), ingest is non-fatal — the store is unchanged,
exactly the raw line is logged, and no exception is raised; and after such
a datagram followed by a well-formed SORT one, the store holds exactly the
one sample of the well-formed datagram.  (Payloads that decode to non-object
JSON values instead raise an uncaught AttributeError, per the
counterexample.) -/
theorem claimC1_amended :
    (∀ (store : Store) (dg : Datagram), dg.decoded = .error () →
      ingest_step store dg = .ok (store, [LogLine.raw dg.local_hms dg.addr dg.txt])) ∧
    ingest_run [] [dgBadC1, dgGoodC1] =
      .ok ([(PyVal.vstr "SORT", [40])],
        [LogLine.raw "12:00:02" "10.0.0.7:6010" "hello not json",
         LogLine.raw "12:00:03" "10.0.0.7:6010" "\x7b\"task\":\"SORT\",\"epoch_ms\":100\x7d",
         LogLine.perMsg (PyVal.vstr "SORT") 40 40 "HWM(100%)=40ms | HWM(99%)=40ms" 1]) := by
  constructor
  · intro store dg h
    simp only [ingest_step, h]
  · decide

/-- Claim C1, witness: the amended theorem applied to the concrete non-JSON
datagram on the empty store. -/
theorem claimC1_witness :
    dgBadC1.decoded = .error () ∧
    ingest_step [] dgBadC1 =
      .ok ([], [LogLine.raw "12:00:02" "10.0.0.7:6010" "hello not json"]) :=
  ⟨rfl, claimC1_amended.1 [] dgBadC1 rfl⟩

/-- Claim C2, counterexample: on a message whose only timestamp field is
now = 2025-10-27T17:37:06.388Z, extraction does not return the claimed
1761585426388 — that value corresponds to 17:17:06.388Z, twenty minutes
earlier. -/
theorem claimC2_counterexample :
    parse_send_ms (.vobj [("now", .vstr "2025-10-27T17:37:06.388Z")]) ≠
      .ok (some 1761585426388) := by decide

/-- Claim C2, amended: with no epoch_ms field and
now = 2025-10-27T17:37:06.388Z, extraction returns epoch milliseconds
1761586626388 (Z read as UTC, milliseconds truncated toward zero); the
value 1761586626388 is what CPython datetime arithmetic yields as well. -/
theorem claimC2_amended :
    parse_send_ms (.vobj [("now", .vstr "2025-10-27T17:37:06.388Z")]) =
      .ok (some 1761586626388) := by decide

/-- Claim C3, counterexample: the claim covers every value epoch_ms may
hold, including non-finite numbers, but on epoch_ms = NaN (which json.loads
accepts) int() raises a ValueError that nothing catches — an exception does
escape the extractor. -/
theorem claimC3_counterexample :
    parse_send_ms (.vobj [("epoch_ms", .vfloat PyFloat.nan)]) = .error PyErr.valueError := rfl

/-- Claim C3, amended: extraction raises no exception on any decoded object
whose epoch_ms field is not a non-finite float: every other epoch_ms value
and every possible now value — parse failures included — produce a normal
result, with parse errors on the now path collapsing to the none result. -/
theorem claimC3_amended (fields : List (String × PyVal))
    (h : isNonFiniteNum (getField fields "epoch_ms") = false) :
    ∃ r : Option Int, parse_send_ms (.vobj fields) = .ok r := by
  cases hem : getField fields "epoch_ms" with
  | vbool b =>
    exact ⟨some (if b then 1 else 0), by simp [parse_send_ms, hem, isNumLike, pyIntOfNum]⟩
  | vint n => exact ⟨some n, by simp [parse_send_ms, hem, isNumLike, pyIntOfNum]⟩
  | vfloat f =>
    cases f with
    | fin q =>
      exact ⟨some (ratTruncToZero q), by simp [parse_send_ms, hem, isNumLike, pyIntOfNum]⟩
    | nan => rw [hem] at h; simp [isNonFiniteNum] at h
    | inf => rw [hem] at h; simp [isNonFiniteNum] at h
    | ninf => rw [hem] at h; simp [isNonFiniteNum] at h
  | vnull => exact ⟨parse_now_ms (getField fields "now"), by simp [parse_send_ms, hem, isNumLike]⟩
  | vstr s => exact ⟨parse_now_ms (getField fields "now"), by simp [parse_send_ms, hem, isNumLike]⟩
  | vlist xs =>
    exact ⟨parse_now_ms (getField fields "now"), by simp [parse_send_ms, hem, isNumLike]⟩
  | vobj fs =>
    exact ⟨parse_now_ms (getField fields "now"), by simp [parse_send_ms, hem, isNumLike]⟩

/-- Claim C3, witness: the amended theorem applied to a message whose now
field holds an unparseable string. -/
theorem claimC3_witness :
    isNonFiniteNum (getField [("now", PyVal.vstr "garbage")] "epoch_ms") = false ∧
    ∃ r : Option Int, parse_send_ms (.vobj [("now", PyVal.vstr "garbage")]) = .ok r :=
  ⟨rfl, claimC3_amended _ rfl⟩

/-- Claim C4: on every non-empty collection of integer samples, the
percentile engine at quantile 1.0 returns the maximum element of the
collection (as a float). -/
theorem claimC4 (values : List Int) (hne : values ≠ []) :
    percentile_hwm values 1 = .ok (PyFloat.fin ((pyMax values : Int) : ℚ)) := by
  have hn : 0 < values.length := List.length_pos.mpr hne
  have hidx : hwmIndex values.length 1 = values.length - 1 := by
    unfold hwmIndex
    rw [one_mul, Int.ceil_natCast, max_eq_right (by omega)]
    omega
  have hk : hwmIndex values.length 1 < values.length := by rw [hidx]; omega
  rw [percentile_hwm_pos values 1 hne hk, hidx, sorted_getD_last_eq_pyMax values hne]

/-- Claim C4, witness: the theorem applied to the collection 3, 1, 2. -/
theorem claimC4_witness :
    ([3, 1, 2] : List Int) ≠ [] ∧
    percentile_hwm [3, 1, 2] 1 = .ok (PyFloat.fin ((pyMax [3, 1, 2] : Int) : ℚ)) :=
  ⟨by decide, claimC4 [3, 1, 2] (by decide)⟩

/-- Claim C5: on every non-empty collection and every quantile q with
0 < q and q ≤ 1, the nearest-rank index max(1, ceil(q n)) - 1 is in
bounds, the engine returns exactly the element of the ascending sort at
that index (as a float, never interpolated), and that element belongs to
the collection. -/
theorem claimC5 (values : List Int) (q : ℚ) (h0 : 0 < q) (h1 : q ≤ 1) (hne : values ≠ []) :
    hwmIndex values.length q < values.length ∧
    percentile_hwm values q =
      .ok (PyFloat.fin (((List.insertionSort (· ≤ ·) values).getD
        (hwmIndex values.length q) 0 : Int) : ℚ)) ∧
    (List.insertionSort (· ≤ ·) values).getD (hwmIndex values.length q) 0 ∈ values := by
  have hk := hwmIndex_lt values q hne h1
  refine ⟨hk, percentile_hwm_pos values q hne hk, ?_⟩
  have hlen := (List.perm_insertionSort (· ≤ ·) values).length_eq
  rw [List.getD_eq_getElem _ _ (by omega)]
  exact (List.perm_insertionSort (· ≤ ·) values).mem_iff.mp (List.getElem_mem _)

/-- Claim C5, witness: the theorem applied to the collection 5, 7 at the
median quantile. -/
theorem claimC5_witness :
    (0 : ℚ) < 1/2 ∧ (1/2 : ℚ) ≤ 1 ∧ ([5, 7] : List Int) ≠ [] ∧
    (hwmIndex ([5, 7] : List Int).length (1/2) < ([5, 7] : List Int).length ∧
     percentile_hwm [5, 7] (1/2) =
       .ok (PyFloat.fin (((List.insertionSort (· ≤ ·) ([5, 7] : List Int)).getD
         (hwmIndex ([5, 7] : List Int).length (1/2)) 0 : Int) : ℚ)) ∧
     (List.insertionSort (· ≤ ·) ([5, 7] : List Int)).getD
       (hwmIndex ([5, 7] : List Int).length (1/2)) 0 ∈ ([5, 7] : List Int)) :=
  ⟨by norm_num, by norm_num, by decide,
   claimC5 [5, 7] (1/2) (by norm_num) (by norm_num) (by decide)⟩

/-- Claim C6: on the empty collection the percentile engine returns the nan
sentinel for every quantile rather than failing, nan formats as the text
nan, and the caller format_hwms renders every requested percentile of an
empty series as an =nanms part without raising. -/
theorem claimC6 :
    (∀ q : ℚ, percentile_hwm [] q = .ok PyFloat.nan) ∧
    pyFormatF0 PyFloat.nan = "nan" ∧
    (∀ pcts : List ℚ,
      format_hwms [] pcts =
        .ok (String.intercalate " | " (pcts.map fun p =>
          "HWM(" ++ toString (ratTruncToZero (p * 100)) ++ "%)=" ++ "nan" ++ "ms"))) := by
  refine ⟨fun q => rfl, rfl, fun pcts => ?_⟩
  simp [format_hwms, hwmParts_empty pcts]

/-- Claim C7: the task classifier returns the first truthy value among the
fields task, name, tag, event in that order (falsy values fall through) and
the literal UNKNOWN when none is truthy; in particular a SORT task maps to
SORT, an empty task falls through to the name X, and the empty message maps
to UNKNOWN. -/
theorem claimC7 :
    (∀ fields : List (String × PyVal),
      task_key fields =
        ((["task", "name", "tag", "event"].map (getField fields)).find? PyVal.truthy).getD
          (PyVal.vstr "UNKNOWN")) ∧
    task_key [("task", PyVal.vstr "SORT")] = PyVal.vstr "SORT" ∧
    task_key [("name", PyVal.vstr "X"), ("task", PyVal.vstr "")] = PyVal.vstr "X" ∧
    task_key [] = PyVal.vstr "UNKNOWN" := by
  refine ⟨fun fields => ?_, rfl, rfl, rfl⟩
  simp only [task_key, pyOr, List.map]
  cases h1 : (getField fields "task").truthy <;>
    cases h2 : (getField fields "name").truthy <;>
      cases h3 : (getField fields "tag").truthy <;>
        cases h4 : (getField fields "event").truthy <;>
          simp [List.find?, h1, h2, h3, h4]

/-- Claim C8: after ingesting the two SORT datagrams with delays 10 ms and
50 ms, the store holds exactly the series 10, 50 for SORT, whose worst case
is 50, whose 100th and 99th percentile high-water marks are both 50, and
whose report line shows count 2, worst case 50, mean 30.0 and high-water
marks 50. -/
theorem claimC8 :
    (ingest_run [] [dgSortA, dgSortB]).map Prod.fst = .ok [(PyVal.vstr "SORT", [10, 50])] ∧
    pyMax [10, 50] = 50 ∧
    percentile_hwm [10, 50] 1 = .ok (PyFloat.fin 50) ∧
    percentile_hwm [10, 50] (99 / 100) = .ok (PyFloat.fin 50) ∧
    print_summary [(PyVal.vstr "SORT", [10, 50])] =
      .ok [ReportLine.taskLine (PyVal.vstr "SORT") 2 (PyFloat.fin 50) (PyFloat.fin 30)
        "HWM(100%)=50ms | HWM(99%)=50ms | HWM(95%)=50ms"] :=
  ⟨by decide, by decide, by decide, by decide, by decide⟩

/-- Claim C9: every loop iteration that completes without an uncaught
exception either leaves the store exactly unchanged, or appends exactly one
sample to exactly one task series — that series grows by one element at its
end, every other series is untouched, and the key sequence is either
unchanged or extended by the one new key; nothing is removed or reordered. -/
theorem claimC9 (store : Store) (dg : Datagram) (store2 : Store) (log : List LogLine)
    (h : ingest_step store dg = .ok (store2, log)) :
    store2 = store ∨
    ∃ k d,
      lookupSeries store2 k = some ((lookupSeries store k).getD [] ++ [d]) ∧
      (∀ k2, k2 ≠ k → lookupSeries store2 k2 = lookupSeries store k2) ∧
      (store2.map Prod.fst = store.map Prod.fst ∨
       store2.map Prod.fst = store.map Prod.fst ++ [k]) := by
  unfold ingest_step at h
  split at h
  · simp only [Except.ok.injEq, Prod.mk.injEq] at h
    left; exact h.1.symm
  · split at h
    · simp at h
    · simp only [Except.ok.injEq, Prod.mk.injEq] at h
      left; exact h.1.symm
    · split at h
      · dsimp only at h
        split at h
        · simp at h
        · simp only [Except.ok.injEq, Prod.mk.injEq] at h
          obtain ⟨h1, h2⟩ := h
          subst h1
          right
          exact ⟨_, _, lookupSeries_store_append_self store _ _,
            fun k2 hk2 => lookupSeries_store_append_ne store _ k2 _ hk2,
            keys_store_append store _ _⟩
      · simp at h

/-- Claim C9, witness: the theorem applied to a non-JSON datagram on the
empty store, which takes the unchanged-store branch. -/
theorem claimC9_witness :
    ingest_step [] dgC9 = .ok ([], [LogLine.raw "t" "a" "w"]) ∧
    ((([] : Store) = ([] : Store)) ∨
     ∃ k d,
       lookupSeries ([] : Store) k = some ((lookupSeries ([] : Store) k).getD [] ++ [d]) ∧
       (∀ k2, k2 ≠ k → lookupSeries ([] : Store) k2 = lookupSeries ([] : Store) k2) ∧
       (([] : Store).map Prod.fst = ([] : Store).map Prod.fst ∨
        ([] : Store).map Prod.fst = ([] : Store).map Prod.fst ++ [k])) :=
  ⟨rfl, claimC9 [] dgC9 [] [LogLine.raw "t" "a" "w"] rfl⟩

/-- Claim C10: a boolean epoch_ms passes the isinstance number check (bool
is a subclass of int), so extraction takes the preferred path and returns 1
for true and 0 for false, never consulting the now field — whatever value
now holds. -/
theorem claimC10 (b : Bool) (v : PyVal) :
    parse_send_ms (.vobj [("epoch_ms", .vbool b), ("now", v)]) =
      .ok (some (if b then 1 else 0)) := by
  cases b <;> rfl

end

end STR
